import Mathlib

/-!
Formal model of `src/main.py` of the SpineExporter repository.

The model embeds the scale-discovery core:

* `try_export` (main.py lines 40-50): classification of one probe of the
  external renderer.  The subprocess invocation is abstracted by an
  `Option ProcResult` (`none` models `subprocess.run` raising, e.g. a
  spawn failure; `some res` carries the return code and captured stdout),
  and the output-directory listing by a `List String` of file names.
  A raised Python exception is modelled as `Except.error`.

* `export_spine` (main.py lines 53-119): the per-job scale search.  The
  sequence of `try_export` outcomes is abstracted by an oracle
  `probe : Nat → Nat → Except SpineError Bool` giving the outcome of the
  i-th probe call at a given percent scale (the code passes the fraction
  `middle / 100`; the model works on the percent grid, with the first
  probe's `export_scale = 1.0` represented as percent 100).  The
  output-directory listing at report time is a parameter `pngs`.
  Side effects (printed report lines, `shutil.rmtree`) and an uncaught
  exception are recorded in the returned `JobOutcome`.
-/

namespace SpineExporter

/-- Python exceptions that can escape the modelled code paths. -/
inductive SpineError where
  | spawnFailure
  | indexError
deriving DecidableEq

/-- Result of a completed `subprocess.run`: return code and decoded stdout. -/
structure ProcResult where
  returncode : Int
  stdout : String
deriving DecidableEq

/-- The misfit signature searched for in the renderer's output
(main.py line 47). -/
def misfitSig : String := "Image does not fit within max page"

/-- Python's `suffix in s` membership test for the file-name check:
`f.endswith(".png")` (main.py lines 33, 114). -/
def endswith (f sfx : String) : Bool :=
  sfx.data.isSuffixOf f.data

/-- Python's substring test `pat in s` (main.py line 47), on char lists. -/
def hasSubstr (s pat : List Char) : Bool :=
  match s with
  | [] => pat.isEmpty
  | _ :: rest => pat.isPrefixOf s || hasSubstr rest pat

/-- `pat in s` on strings. -/
def strContains (s pat : String) : Bool :=
  hasSubstr s.data pat.data

/-- The `.png` entries of a directory listing (main.py lines 33, 114). -/
def pngFiles (files : List String) : List String :=
  files.filter (fun f => endswith f ".png")

/-- `check_output_folder` (main.py lines 31-37): true iff there is exactly
one `.png` file in the output folder. -/
def check_output_folder (files : List String) : Bool :=
  (pngFiles files).length == 1

/-- What one `try_export` call yields when no exception escapes:
the boolean the function returns, and whether the error-detail line
was printed. -/
structure TryResult where
  fits : Bool
  printedDetail : Bool
deriving DecidableEq

/-- `try_export` (main.py lines 40-50).  `spawn = none` models
`subprocess.run` raising (e.g. the executable path does not exist);
the function has no handler, so the exception propagates.  On a
non-zero return code the captured stdout is printed iff it does not
contain `misfitSig`, and `False` is returned either way; on a zero
return code the result is `check_output_folder`. -/
def try_export (spawn : Option ProcResult) (outputFiles : List String) :
    Except SpineError TryResult :=
  match spawn with
  | none => Except.error SpineError.spawnFailure
  | some res =>
      if res.returncode ≠ 0 then
        Except.ok ⟨false, ! strContains res.stdout misfitSig⟩
      else
        Except.ok ⟨check_output_folder outputFiles, false⟩

/-- One iteration of the bisection loop: the `left`/`right` bounds at entry,
the probed `middle`, and whether `try_export` returned `True`. -/
structure IterRecord where
  left : Nat
  right : Nat
  middle : Nat
  fit : Bool
deriving DecidableEq

/-- The midpoint adjustment of main.py lines 78-80:
`middle = (left + right) // 2; if middle % 2 == 1: middle += 1`. -/
def evenUp (m : Nat) : Nat :=
  if m % 2 = 1 then m + 1 else m

/-- Outcome of the bisection loop: per-iteration records, the final
`ok_value`, and the exception, if a probe raised one. -/
structure LoopResult where
  trace : List IterRecord
  ok_value : Nat
  err : Option SpineError
deriving DecidableEq

/-- Outcome oracle for the successive `try_export` calls of one job:
call index and percent scale to the call's result.  A pure stub probe
that depends only on scale ignores the index. -/
abbrev Oracle := Nat → Nat → Except SpineError Bool

/-- The `while left <= right` loop of main.py lines 77-87, with a fuel
argument to drive the recursion (each iteration strictly shrinks
`right + 1 - left`, so the fuel `right + 2 - left` supplied by
`searchLoop` is never exhausted; see `searchLoopAux_fuel_irrel`).
If a probe raises, the attempted iteration is recorded and the
exception is reported in `err`. -/
def searchLoopAux (probe : Oracle) :
    Nat → Nat → Nat → Nat → Nat → LoopResult
  | 0, _, _, _, ok => ⟨[], ok, none⟩
  | fuel + 1, idx, left, right, ok =>
      if left ≤ right then
        let middle := evenUp ((left + right) / 2)
        match probe idx middle with
        | Except.error e => ⟨[⟨left, right, middle, false⟩], ok, some e⟩
        | Except.ok true =>
            let r := searchLoopAux probe fuel (idx + 1) (middle + 2) right middle
            ⟨⟨left, right, middle, true⟩ :: r.trace, r.ok_value, r.err⟩
        | Except.ok false =>
            let r := searchLoopAux probe fuel (idx + 1) left (middle - 2) ok
            ⟨⟨left, right, middle, false⟩ :: r.trace, r.ok_value, r.err⟩
      else ⟨[], ok, none⟩

/-- The bisection loop with sufficient fuel. -/
def searchLoop (probe : Oracle) (idx left right ok : Nat) : LoopResult :=
  searchLoopAux probe (right + 2 - left) idx left right ok

/-- Observable outcome of `export_spine` (main.py lines 53-119) for one job:
`probes` is the list of percent scales submitted to `try_export` in order,
`trace` the loop iterations, `lastOk` the loop's final `ok_value` (normal
`none` when the loop was never entered), `failed` the `failed` flag,
the printed result lines, the reported percent scale on the success line,
whether `shutil.rmtree` was reached, and the uncaught exception if one
escaped. -/
structure JobOutcome where
  probes : List Nat
  trace : List IterRecord
  lastOk : Option Nat
  failed : Bool
  printedSuccessLine : Bool
  printedFailLine : Bool
  reportedScalePct : Option Nat
  rmtreeCalled : Bool
  uncaught : Option SpineError
deriving DecidableEq

/-- `export_spine` (main.py lines 53-119), scale-search core.
First probe at `export_scale = 1.0` (percent 100); if it fits, the
success report is built at once.  Otherwise the bisection loop runs with
`left = 10`, `right = 100`, `ok_value = 100`; if the loop ends with
`ok_value != 100` a final re-confirming `try_export` at `ok_value` is made
and its result discarded.  The success report reads the output listing:
an empty `.png` list makes `png_files[0]` raise `IndexError` (line 115).
`shutil.rmtree` (line 119) is reached only if no exception escaped. -/
def export_spine (probe : Oracle) (pngs : List String) : JobOutcome :=
  match probe 0 100 with
  | Except.error e =>
      { probes := [100], trace := [], lastOk := none, failed := false,
        printedSuccessLine := false, printedFailLine := false,
        reportedScalePct := none, rmtreeCalled := false, uncaught := some e }
  | Except.ok true =>
      if (pngFiles pngs).isEmpty then
        { probes := [100], trace := [], lastOk := none, failed := false,
          printedSuccessLine := false, printedFailLine := false,
          reportedScalePct := none, rmtreeCalled := false,
          uncaught := some SpineError.indexError }
      else
        { probes := [100], trace := [], lastOk := none, failed := false,
          printedSuccessLine := true, printedFailLine := false,
          reportedScalePct := some 100, rmtreeCalled := true, uncaught := none }
  | Except.ok false =>
      let r := searchLoop probe 1 10 100 100
      match r.err with
      | some e =>
          { probes := 100 :: r.trace.map IterRecord.middle, trace := r.trace,
            lastOk := some r.ok_value, failed := false,
            printedSuccessLine := false, printedFailLine := false,
            reportedScalePct := none, rmtreeCalled := false, uncaught := some e }
      | none =>
          if r.ok_value ≠ 100 then
            match probe (1 + r.trace.length) r.ok_value with
            | Except.error e =>
                { probes := 100 :: r.trace.map IterRecord.middle ++ [r.ok_value],
                  trace := r.trace, lastOk := some r.ok_value, failed := false,
                  printedSuccessLine := false, printedFailLine := false,
                  reportedScalePct := none, rmtreeCalled := false,
                  uncaught := some e }
            | Except.ok _ =>
                if (pngFiles pngs).isEmpty then
                  { probes := 100 :: r.trace.map IterRecord.middle ++ [r.ok_value],
                    trace := r.trace, lastOk := some r.ok_value, failed := false,
                    printedSuccessLine := false, printedFailLine := false,
                    reportedScalePct := none, rmtreeCalled := false,
                    uncaught := some SpineError.indexError }
                else
                  { probes := 100 :: r.trace.map IterRecord.middle ++ [r.ok_value],
                    trace := r.trace, lastOk := some r.ok_value, failed := false,
                    printedSuccessLine := true, printedFailLine := false,
                    reportedScalePct := some r.ok_value, rmtreeCalled := true,
                    uncaught := none }
          else
            { probes := 100 :: r.trace.map IterRecord.middle, trace := r.trace,
              lastOk := some r.ok_value, failed := true,
              printedSuccessLine := false, printedFailLine := true,
              reportedScalePct := none, rmtreeCalled := true, uncaught := none }

/-- Stub probe that always reports a misfit. -/
def stubNever : Oracle := fun _ _ => Except.ok false

/-- Stub probe that always fits. -/
def stubAlways : Oracle := fun _ _ => Except.ok true

/-- Stub probe that fits exactly for percent scales `≤ 42`. -/
def stub42 : Oracle := fun _ m => Except.ok (decide (m ≤ 42))

/-- Stub probe, pure in the scale, that fits exactly at 56, 80, 92 and 98:
it fails the initial full-scale probe, then drives the loop's lower bound
up to 100. -/
def stubHigh : Oracle :=
  fun _ m => Except.ok (decide (m = 56 ∨ m = 80 ∨ m = 92 ∨ m = 98))

/-- Call-indexed stub probe: the initial full-scale probe fails, every
later probe fits. -/
def stubAllButFirst : Oracle := fun i _ => Except.ok (decide (i ≠ 0))

/-- Stub probe fitting for scales ≤ 42, except that the seventh call
(index 6, which for this stub is the final re-confirmation probe at 42)
raises a spawn failure. -/
def stubRaiseFinal : Oracle :=
  fun i m =>
    if i = 6 then Except.error SpineError.spawnFailure
    else Except.ok (decide (m ≤ 42))

/-- Stub probe fitting for scales ≤ 42, except that the seventh call
(index 6, the final re-confirmation probe at 42) returns `False`. -/
def stubFailFinal : Oracle :=
  fun i m => Except.ok (if i = 6 then false else decide (m ≤ 42))

/-- Modelled from the spec's words for the midpoint rule of claim C2:
`(low+high)/2` rounded down to the nearest even integer (which, for an
even `low ≤ (low+high)/2`, is the nearest even integer ≥ `low`).  To be
compared with the source's `evenUp ((left + right) / 2)`. -/
def claimMidDown (low high : Nat) : Nat :=
  if (low + high) / 2 % 2 = 1 then (low + high) / 2 - 1 else (low + high) / 2

/-- `evenUp m` is even. -/
theorem evenUp_even (m : Nat) : evenUp m % 2 = 0 := by
  unfold evenUp; split <;> omega

/-- `evenUp m` is at least `m`. -/
theorem evenUp_ge (m : Nat) : m ≤ evenUp m := by
  unfold evenUp; split <;> omega

/-- `evenUp m` is at most `m + 1`. -/
theorem evenUp_le_succ (m : Nat) : evenUp m ≤ m + 1 := by
  unfold evenUp; split <;> omega

/-- Fuel irrelevance: any fuel exceeding `right + 1 - left` yields the same
result, because every iteration strictly shrinks that measure.  Hence the
fuel-driven recursion agrees with the source's unbounded `while` loop. -/
theorem searchLoopAux_fuel_irrel (p : Oracle) :
    ∀ fuel1 fuel2 idx l r ok, 1 ≤ l → r + 1 - l < fuel1 → r + 1 - l < fuel2 →
      searchLoopAux p fuel1 idx l r ok = searchLoopAux p fuel2 idx l r ok := by
  intro fuel1
  induction fuel1 with
  | zero => intro fuel2 idx l r ok _ h1 _; omega
  | succ n ih =>
      intro fuel2 idx l r ok hl h1 h2
      cases fuel2 with
      | zero => omega
      | succ m =>
          simp only [searchLoopAux]
          by_cases hlr : l ≤ r
          · rw [if_pos hlr, if_pos hlr]
            have hub : evenUp ((l + r) / 2) ≤ r + 1 := by
              unfold evenUp; split <;> omega
            have hlb : l ≤ evenUp ((l + r) / 2) := by
              refine le_trans ?_ (evenUp_ge _); omega
            have hev : evenUp ((l + r) / 2) % 2 = 0 := evenUp_even _
            rcases hp : p idx (evenUp ((l + r) / 2)) with e | b
            · rfl
            · cases b
              · rw [ih m (idx + 1) l (evenUp ((l + r) / 2) - 2) ok hl
                  (by omega) (by omega)]
              · rw [ih m (idx + 1) (evenUp ((l + r) / 2) + 2) r
                  (evenUp ((l + r) / 2)) (by omega) (by omega) (by omega)]
          · rw [if_neg hlr, if_neg hlr]

/-- `searchLoop` equals the fuel recursion at every sufficient fuel: its
fixed fuel `right + 2 - left` computes the loop's true fixpoint. -/
theorem searchLoop_eq_aux (p : Oracle) (idx l r ok fuel : Nat)
    (hl : 1 ≤ l) (h : r + 1 - l < fuel) :
    searchLoop p idx l r ok = searchLoopAux p fuel idx l r ok := by
  by_cases hlr : l ≤ r
  · exact searchLoopAux_fuel_irrel p (r + 2 - l) fuel idx l r ok hl (by omega) h
  · have hz : ∀ f, searchLoopAux p f idx l r ok = ⟨[], ok, none⟩ := by
      intro f
      cases f <;> simp [searchLoopAux, hlr]
    rw [searchLoop, hz, hz]

/-- Every recorded loop iteration probes exactly the even-rounded-up
midpoint of its bounds. -/
theorem searchLoopAux_mid (p : Oracle) :
    ∀ fuel idx l r ok, ∀ rec ∈ (searchLoopAux p fuel idx l r ok).trace,
      rec.middle = evenUp ((rec.left + rec.right) / 2) := by
  intro fuel
  induction fuel with
  | zero => intro idx l r ok rec h; simp [searchLoopAux] at h
  | succ n ih =>
      intro idx l r ok rec h
      simp only [searchLoopAux] at h
      by_cases hlr : l ≤ r
      · rw [if_pos hlr] at h
        rcases hp : p idx (evenUp ((l + r) / 2)) with e | b
        · rw [hp] at h
          simp only [List.mem_singleton] at h
          subst h; rfl
        · cases b <;> rw [hp] at h <;> simp only [List.mem_cons] at h <;>
            rcases h with h | h
          · subst h; rfl
          · exact ih _ _ _ _ rec h
          · subst h; rfl
          · exact ih _ _ _ _ rec h
      · rw [if_neg hlr] at h
        simp at h

/-- Quantization invariant of the loop: starting from bounds `10 ≤ l`,
`r ≤ 100` with `r` even and an `ok` seed that is even and in `[10, 100]`,
every probed middle and the final `ok_value` are even and in `[10, 100]`. -/
theorem searchLoopAux_inv (p : Oracle) :
    ∀ fuel idx l r ok, 10 ≤ l → r ≤ 100 → r % 2 = 0 →
      ok % 2 = 0 → 10 ≤ ok → ok ≤ 100 →
      (∀ rec ∈ (searchLoopAux p fuel idx l r ok).trace,
          rec.middle % 2 = 0 ∧ 10 ≤ rec.middle ∧ rec.middle ≤ 100) ∧
        ((searchLoopAux p fuel idx l r ok).ok_value % 2 = 0 ∧
          10 ≤ (searchLoopAux p fuel idx l r ok).ok_value ∧
          (searchLoopAux p fuel idx l r ok).ok_value ≤ 100) := by
  intro fuel
  induction fuel with
  | zero =>
      intro idx l r ok _ _ _ h4 h5 h6
      exact ⟨by intro rec h; simp [searchLoopAux] at h, by simpa [searchLoopAux] using ⟨h4, h5, h6⟩⟩
  | succ n ih =>
      intro idx l r ok h1 h2 h3 h4 h5 h6
      simp only [searchLoopAux]
      by_cases hlr : l ≤ r
      · rw [if_pos hlr]
        have hmg : l ≤ evenUp ((l + r) / 2) := by
          refine le_trans ?_ (evenUp_ge _); omega
        have hme : evenUp ((l + r) / 2) % 2 = 0 := evenUp_even _
        have hml : evenUp ((l + r) / 2) ≤ r := by
          unfold evenUp; split <;> omega
        have h10 : 10 ≤ evenUp ((l + r) / 2) := le_trans h1 hmg
        have h100 : evenUp ((l + r) / 2) ≤ 100 := le_trans hml h2
        rcases hp : p idx (evenUp ((l + r) / 2)) with e | b
        · refine ⟨?_, by simpa using ⟨h4, h5, h6⟩⟩
          intro rec h
          simp only [List.mem_singleton] at h
          subst h
          exact ⟨hme, h10, h100⟩
        · cases b
          · have := ih (idx + 1) l (evenUp ((l + r) / 2) - 2) ok h1 (by omega)
              (by omega) h4 h5 h6
            refine ⟨?_, this.2⟩
            intro rec h
            simp only [List.mem_cons] at h
            rcases h with h | h
            · subst h; exact ⟨hme, h10, h100⟩
            · exact this.1 rec h
          · have := ih (idx + 1) (evenUp ((l + r) / 2) + 2) r
              (evenUp ((l + r) / 2)) (by omega) h2 h3 hme h10 h100
            refine ⟨?_, this.2⟩
            intro rec h
            simp only [List.mem_cons] at h
            rcases h with h | h
            · subst h; exact ⟨hme, h10, h100⟩
            · exact this.1 rec h
      · rw [if_neg hlr]
        exact ⟨by intro rec h; simp at h, by simpa using ⟨h4, h5, h6⟩⟩

/-- Provenance of the loop's `ok_value`: it is either the seed it started
from, or the middle of a recorded iteration whose probe fit. -/
theorem searchLoopAux_ok_src (p : Oracle) :
    ∀ fuel idx l r ok,
      (searchLoopAux p fuel idx l r ok).ok_value = ok ∨
        (searchLoopAux p fuel idx l r ok).trace.any
          (fun rec => rec.fit &&
            (rec.middle == (searchLoopAux p fuel idx l r ok).ok_value)) = true := by
  intro fuel
  induction fuel with
  | zero => intro idx l r ok; left; simp [searchLoopAux]
  | succ n ih =>
      intro idx l r ok
      simp only [searchLoopAux]
      by_cases hlr : l ≤ r
      · rw [if_pos hlr]
        rcases hp : p idx (evenUp ((l + r) / 2)) with e | b
        · left; rfl
        · cases b
          · rcases ih (idx + 1) l (evenUp ((l + r) / 2) - 2) ok with h | h
            · left; exact h
            · right
              simp only [List.any_cons, Bool.or_eq_true]
              right
              exact h
          · rcases ih (idx + 1) (evenUp ((l + r) / 2) + 2) r
              (evenUp ((l + r) / 2)) with h | h
            · right
              simp only [List.any_cons, Bool.or_eq_true]
              left
              simp [h]
            · right
              simp only [List.any_cons, Bool.or_eq_true]
              right
              exact h
      · rw [if_neg hlr]; left; rfl

/-- With positive fuel and an open interval, the first recorded iteration
carries the entry bounds and their even-rounded-up midpoint. -/
theorem searchLoopAux_head (p : Oracle) :
    ∀ fuel idx l r ok, 0 < fuel → l ≤ r →
      ((searchLoopAux p fuel idx l r ok).trace.map
        (fun rec => (rec.left, rec.right, rec.middle))).head? =
        some (l, r, evenUp ((l + r) / 2)) := by
  intro fuel
  match fuel with
  | 0 => intro idx l r ok h; omega
  | n + 1 =>
      intro idx l r ok _ hlr
      simp only [searchLoopAux, if_pos hlr]
      rcases hp : p idx (evenUp ((l + r) / 2)) with e | b
      · rfl
      · cases b <;> rfl

/-- On the search path (initial probe returned `False`) the job's trace is
the loop's trace. -/
theorem export_spine_trace_eq (probe : Oracle) (pngs : List String)
    (h : probe 0 100 = Except.ok false) :
    (export_spine probe pngs).trace = (searchLoop probe 1 10 100 100).trace := by
  simp only [export_spine, h]
  split
  · rfl
  · split
    · split
      · rfl
      · split <;> rfl
    · rfl

/-- On the search path the job's `lastOk` is the loop's final `ok_value`. -/
theorem export_spine_lastOk_eq (probe : Oracle) (pngs : List String)
    (h : probe 0 100 = Except.ok false) :
    (export_spine probe pngs).lastOk = some (searchLoop probe 1 10 100 100).ok_value := by
  simp only [export_spine, h]
  split
  · rfl
  · split
    · split
      · rfl
      · split <;> rfl
    · rfl

/-- A job's trace is empty (fast path or initial-probe exception) or it is
the loop's trace. -/
theorem export_spine_trace_cases (probe : Oracle) (pngs : List String) :
    (export_spine probe pngs).trace = [] ∨
      (export_spine probe pngs).trace = (searchLoop probe 1 10 100 100).trace := by
  rcases h0 : probe 0 100 with e | b
  · left; simp [export_spine, h0]
  · cases b
    · right; exact export_spine_trace_eq probe pngs h0
    · left
      simp only [export_spine, h0]
      split <;> rfl

/-- The possible shapes of a job's probe list: only the full-scale probe,
or the full-scale probe followed by the loop's middles, optionally followed
by the final re-confirmation probe at the loop's `ok_value`. -/
theorem export_spine_probes_cases (probe : Oracle) (pngs : List String) :
    (export_spine probe pngs).probes = [100] ∨
      (export_spine probe pngs).probes =
        100 :: (searchLoop probe 1 10 100 100).trace.map IterRecord.middle ∨
      (export_spine probe pngs).probes =
        100 :: (searchLoop probe 1 10 100 100).trace.map IterRecord.middle
          ++ [(searchLoop probe 1 10 100 100).ok_value] := by
  rcases h0 : probe 0 100 with e | b
  · left; simp [export_spine, h0]
  · cases b
    · simp only [export_spine, h0]
      split
      · right; left; rfl
      · split
        · split
          · right; right; rfl
          · split
            · right; right; rfl
            · right; right; rfl
        · right; left; rfl
    · left
      simp only [export_spine, h0]
      split <;> rfl

/-- On the search path, if no exception escaped the job, the `failed` flag
holds exactly when the loop's final `ok_value` is still 100. -/
theorem export_spine_failed_iff (probe : Oracle) (pngs : List String)
    (h0 : probe 0 100 = Except.ok false)
    (hu : (export_spine probe pngs).uncaught = none) :
    ((export_spine probe pngs).failed = true ↔
      (searchLoop probe 1 10 100 100).ok_value = 100) := by
  simp only [export_spine, h0] at hu ⊢
  split
  · rename_i e heq
    rw [heq] at hu
    simp at hu
  · rename_i heq
    split
    · rename_i hok
      split
      · simp [hok]
      · split
        · simp [hok]
        · simp [hok]
    · rename_i hok
      simp only [not_not] at hok
      simp [hok]

/-- Claim C1: on the default domain, with a stub probe fitting exactly for
scales ≤ 42 (so the full-scale probe at 100 fails), the search reports
success with final scale 42; with a stub that never fits, it reports a
failure result. -/
theorem c1_end_to_end :
    ((export_spine stub42 ["a.png"]).failed = false ∧
      (export_spine stub42 ["a.png"]).reportedScalePct = some 42 ∧
      (export_spine stub42 ["a.png"]).printedSuccessLine = true) ∧
    ((export_spine stubNever ["a.png"]).failed = true ∧
      (export_spine stubNever ["a.png"]).printedFailLine = true ∧
      (export_spine stubNever ["a.png"]).reportedScalePct = none) := by
  decide

/-- Claim C2, counterexample: the first loop iteration of the default run
has bounds 10 and 100, and probes 56 — the midpoint 55 rounded UP to even —
while the claimed round-DOWN rule gives 54; the trace refutes the claimed
midpoint formula. -/
theorem c2_counterexample :
    (export_spine stubNever ["a.png"]).trace.head? = some ⟨10, 100, 56, false⟩ ∧
      claimMidDown 10 100 = 54 ∧
      ¬ ∀ rec ∈ (export_spine stubNever ["a.png"]).trace,
          rec.middle = claimMidDown rec.left rec.right := by
  decide

/-- Claim C2 (amended): in every iteration of the bisection loop the probed
candidate is `(low+high)/2` rounded UP to the nearest even integer — the
unique even value between the midpoint and the midpoint plus one. -/
theorem c2_mid_quantization (probe : Oracle) (pngs : List String) :
    ∀ rec ∈ (export_spine probe pngs).trace,
      rec.middle % 2 = 0 ∧ (rec.left + rec.right) / 2 ≤ rec.middle ∧
        rec.middle ≤ (rec.left + rec.right) / 2 + 1 := by
  intro rec h
  rcases export_spine_trace_cases probe pngs with ht | ht <;> rw [ht] at h
  · simp at h
  · have hm := searchLoopAux_mid probe (100 + 2 - 10) 1 10 100 100 rec h
    rw [hm]
    exact ⟨evenUp_even _, evenUp_ge _, evenUp_le_succ _⟩

/-- Witness for claim C2's theorem at the first iteration of the
never-fitting run. -/
theorem c2_mid_quantization_witness :
    (⟨10, 100, 56, false⟩ : IterRecord) ∈ (export_spine stubNever ["a.png"]).trace ∧
      ((56 : Nat) % 2 = 0 ∧ (10 + 100) / 2 ≤ 56 ∧ 56 ≤ (10 + 100) / 2 + 1) :=
  ⟨by decide, c2_mid_quantization stubNever ["a.png"] ⟨10, 100, 56, false⟩ (by decide)⟩

/-- Claim C3, counterexample: the loop starts with `right = 100`, not 98
(the first recorded iteration carries bounds 10 and 100), and with a pure
stub fitting exactly at 56, 80, 92, 98 the loop re-probes the domain
maximum: 100 is probed twice in the job. -/
theorem c3_counterexample :
    (export_spine stubHigh ["a.png"]).trace.head? = some ⟨10, 100, 56, true⟩ ∧
      100 ∈ (export_spine stubHigh ["a.png"]).trace.map IterRecord.middle ∧
      (export_spine stubHigh ["a.png"]).probes.count 100 = 2 := by
  decide

/-- Claim C3 (amended): when the initial full-scale probe does not fit, the
loop starts with `low = 10` and `high = 100` (the domain maximum, not 98),
so its first probed candidate is 56; the loop may re-probe 100. -/
theorem c3_init (probe : Oracle) (pngs : List String)
    (h : probe 0 100 = Except.ok false) :
    ((export_spine probe pngs).trace.map
      (fun rec => (rec.left, rec.right, rec.middle))).head? = some (10, 100, 56) := by
  rw [export_spine_trace_eq probe pngs h]
  have h1 := searchLoopAux_head probe (100 + 2 - 10) 1 10 100 100 (by decide) (by decide)
  have h2 : evenUp ((10 + 100) / 2) = 56 := by decide
  rw [h2] at h1
  exact h1

/-- Witness for claim C3's theorem on the never-fitting run. -/
theorem c3_init_witness :
    stubNever 0 100 = Except.ok false ∧
      ((export_spine stubNever ["a.png"]).trace.map
        (fun rec => (rec.left, rec.right, rec.middle))).head? = some (10, 100, 56) :=
  ⟨rfl, c3_init stubNever ["a.png"] rfl⟩

/-- Claim C4, counterexample: with the call-indexed stub whose loop probes
all fit, the loop drives `ok_value` to 100 (the sentinel value itself, a
real scale of the domain), so the job reports failure even though loop
probes returned Fits — refuting the claimed failure-iff-never-fit
equivalence and the claimed distinctness of the sentinel. -/
theorem c4_counterexample :
    (export_spine stubAllButFirst ["a.png"]).failed = true ∧
      (export_spine stubAllButFirst ["a.png"]).trace.any IterRecord.fit = true ∧
      (export_spine stubAllButFirst ["a.png"]).lastOk = some 100 := by
  decide

/-- Claim C4 (amended): `bestFitting` starts at 100 — the domain maximum, a
real scale, not a distinct sentinel — and is overwritten only by fitting
loop probes; when the search loop runs and no exception escapes, the job
reports failure iff the final `ok_value` is 100, which happens when no loop
probe fit or when the last recorded fit was a loop probe at 100 itself. -/
theorem c4_failure_iff (probe : Oracle) (pngs : List String)
    (h0 : probe 0 100 = Except.ok false)
    (hu : (export_spine probe pngs).uncaught = none) :
    ((export_spine probe pngs).failed = true ↔
        (export_spine probe pngs).lastOk = some 100) ∧
      ((export_spine probe pngs).lastOk = some 100 ∨
        (export_spine probe pngs).trace.any
          (fun rec => rec.fit &&
            (some rec.middle == (export_spine probe pngs).lastOk)) = true) := by
  have hiff := export_spine_failed_iff probe pngs h0 hu
  have hlast := export_spine_lastOk_eq probe pngs h0
  have htr := export_spine_trace_eq probe pngs h0
  constructor
  · rw [hlast, hiff]
    simp
  · rw [hlast, htr]
    rcases searchLoopAux_ok_src probe (100 + 2 - 10) 1 10 100 100 with h | h
    · left
      exact congrArg some h
    · right
      exact h

/-- Witness for claim C4's theorem on the never-fitting run, which indeed
reports failure with `ok_value` still 100. -/
theorem c4_failure_iff_witness :
    stubNever 0 100 = Except.ok false ∧
      (export_spine stubNever ["a.png"]).uncaught = none ∧
      (((export_spine stubNever ["a.png"]).failed = true ↔
          (export_spine stubNever ["a.png"]).lastOk = some 100) ∧
        ((export_spine stubNever ["a.png"]).lastOk = some 100 ∨
          (export_spine stubNever ["a.png"]).trace.any
            (fun rec => rec.fit &&
              (some rec.middle == (export_spine stubNever ["a.png"]).lastOk)) = true)) :=
  ⟨rfl, by decide, c4_failure_iff stubNever ["a.png"] rfl (by decide)⟩

/-- Claim C5: every percent value the job submits to the probe — the initial
full-scale probe, every loop probe, and the final re-confirmation probe —
is an even integer within [10, 100], for every oracle of probe outcomes. -/
theorem c5_probes_quantized (probe : Oracle) (pngs : List String) :
    ∀ q ∈ (export_spine probe pngs).probes, q % 2 = 0 ∧ 10 ≤ q ∧ q ≤ 100 := by
  intro q hq
  have hloop := searchLoopAux_inv probe (100 + 2 - 10) 1 10 100 100
    (by decide) (by decide) (by decide) (by decide) (by decide) (by decide)
  rcases export_spine_probes_cases probe pngs with h | h | h <;> rw [h] at hq
  · simp only [List.mem_singleton] at hq
    subst hq
    exact ⟨by decide, by decide, by decide⟩
  · rcases List.mem_cons.mp hq with rfl | hq
    · exact ⟨by decide, by decide, by decide⟩
    · obtain ⟨rec, hrec, rfl⟩ := List.mem_map.mp hq
      exact hloop.1 rec hrec
  · rcases List.mem_cons.mp hq with rfl | hq
    · exact ⟨by decide, by decide, by decide⟩
    · rcases List.mem_append.mp hq with hq | hq
      · obtain ⟨rec, hrec, rfl⟩ := List.mem_map.mp hq
        exact hloop.1 rec hrec
      · simp only [List.mem_singleton] at hq
        subst hq
        exact hloop.2

/-- Witness for claim C5's theorem at the initial full-scale probe of the
never-fitting run. -/
theorem c5_probes_quantized_witness :
    100 ∈ (export_spine stubNever ["a.png"]).probes ∧
      ((100 : Nat) % 2 = 0 ∧ 10 ≤ 100 ∧ (100 : Nat) ≤ 100) :=
  ⟨by decide, c5_probes_quantized stubNever ["a.png"] 100 (by decide)⟩

/-- Claim C6: if the very first probe, at the domain maximum (scale 1.0,
percent 100), fits, then exactly one probe occurs and the job reports
success with scale equal to the domain maximum. -/
theorem c6_fast_path (probe : Oracle) (pngs : List String)
    (h : probe 0 100 = Except.ok true) (hp : pngFiles pngs ≠ []) :
    (export_spine probe pngs).probes = [100] ∧
      (export_spine probe pngs).probes.length = 1 ∧
      (export_spine probe pngs).failed = false ∧
      (export_spine probe pngs).printedSuccessLine = true ∧
      (export_spine probe pngs).reportedScalePct = some 100 := by
  have hne : (pngFiles pngs).isEmpty = false := by
    rcases hpf : pngFiles pngs with _ | ⟨a, as⟩
    · exact absurd hpf hp
    · rfl
  simp [export_spine, h, hne]

/-- Witness for claim C6's theorem on the always-fitting stub. -/
theorem c6_fast_path_witness :
    stubAlways 0 100 = Except.ok true ∧ pngFiles ["a.png"] ≠ [] ∧
      ((export_spine stubAlways ["a.png"]).probes = [100] ∧
        (export_spine stubAlways ["a.png"]).probes.length = 1 ∧
        (export_spine stubAlways ["a.png"]).failed = false ∧
        (export_spine stubAlways ["a.png"]).printedSuccessLine = true ∧
        (export_spine stubAlways ["a.png"]).reportedScalePct = some 100) :=
  ⟨rfl, by decide, c6_fast_path stubAlways ["a.png"] rfl (by decide)⟩

/-- Claim C7: on a non-zero exit of the external process, the probe prints
the captured stdout detail iff that stdout does not contain the known
misfit signature, and in both cases returns the same non-fitting `False`,
so the search narrows identically. -/
theorem c7_error_surfacing (rc : Int) (s : String) (files : List String)
    (h : rc ≠ 0) :
    try_export (some ⟨rc, s⟩) files =
      Except.ok ⟨false, ! strContains s misfitSig⟩ := by
  simp [try_export, h]

/-- Witness for claim C7's theorem: exit code 1 with stdout lacking the
signature prints the detail and classifies as non-fitting. -/
theorem c7_error_surfacing_witness :
    (1 : Int) ≠ 0 ∧
      try_export (some ⟨1, "oops"⟩) [] = Except.ok ⟨false, true⟩ := by
  refine ⟨by decide, ?_⟩
  have hs : (! strContains "oops" misfitSig) = true := by decide
  rw [c7_error_surfacing 1 "oops" [] (by decide), hs]

/-- Claim C8, counterexample: when the final re-confirmation probe raises a
spawn failure (here on the run whose loop converges to 42 in five
iterations, so the final probe is call index 6), the exception escapes the
job and the workspace deletion is skipped. -/
theorem c8_counterexample :
    (export_spine stubRaiseFinal ["a.png"]).uncaught = some SpineError.spawnFailure ∧
      (export_spine stubRaiseFinal ["a.png"]).rmtreeCalled = false := by
  decide

/-- Claim C8 (amended): the workspace directory is deleted exactly when the
job runs to completion without an uncaught exception — success, search
exhaustion, or a classified probe error; when any probe raises, or the
success-path listing is empty, `shutil.rmtree` is never reached. -/
theorem c8_cleanup (probe : Oracle) (pngs : List String) :
    (export_spine probe pngs).rmtreeCalled = true ↔
      (export_spine probe pngs).uncaught = none := by
  rcases h0 : probe 0 100 with e | b
  · simp [export_spine, h0]
  · cases b
    · simp only [export_spine, h0]
      split
      · simp
      · split
        · split
          · simp
          · split <;> simp
        · simp
    · simp only [export_spine, h0]
      split <;> simp

/-- Claim C9, counterexample: a spawn failure makes `try_export` return the
raised exception — it propagates to the caller rather than being converted
into a classified probe outcome, and it aborts the job. -/
theorem c9_counterexample :
    try_export none [] = Except.error SpineError.spawnFailure ∧
      (export_spine (fun _ _ => (try_export none []).map TryResult.fits)
          ["a.png"]).uncaught = some SpineError.spawnFailure ∧
      (export_spine (fun _ _ => (try_export none []).map TryResult.fits)
          ["a.png"]).rmtreeCalled = false :=
  ⟨rfl, by decide, by decide⟩

/-- Claim C9 (amended): `try_export` has no handler around the subprocess
invocation, so a process-spawn failure always propagates out of the probe
as an exception instead of surfacing as a classified Error outcome. -/
theorem c9_spawn_propagates (files : List String) :
    try_export none files = Except.error SpineError.spawnFailure := rfl

/-- Claim C10: when the loop recorded a fitting value (final `ok_value` not
100) and the final re-confirmation probe returns any boolean `b`, that
boolean is discarded: the job never takes the failure branch, and reports
success with the recorded value when the output listing has a `.png` —
while an empty listing raises an uncaught IndexError with no failure line
emitted. -/
theorem c10_final_probe_discarded (probe : Oracle) (pngs : List String) (b : Bool)
    (h0 : probe 0 100 = Except.ok false)
    (herr : (searchLoop probe 1 10 100 100).err = none)
    (hok : (searchLoop probe 1 10 100 100).ok_value ≠ 100)
    (hfin : probe (1 + (searchLoop probe 1 10 100 100).trace.length)
        (searchLoop probe 1 10 100 100).ok_value = Except.ok b) :
    (export_spine probe pngs).failed = false ∧
      (export_spine probe pngs).printedFailLine = false ∧
      (export_spine probe pngs).reportedScalePct =
        (if (pngFiles pngs).isEmpty then none
          else some (searchLoop probe 1 10 100 100).ok_value) ∧
      (export_spine probe pngs).uncaught =
        (if (pngFiles pngs).isEmpty then some SpineError.indexError else none) ∧
      (export_spine probe pngs).printedSuccessLine = !(pngFiles pngs).isEmpty := by
  simp only [export_spine, h0, herr, hfin]
  rcases hpng : (pngFiles pngs).isEmpty with _ | _ <;> simp [hok, hpng]

/-- Witness for claim C10's theorem: the stub converging to 42 whose final
re-confirmation probe returns `False`; the job still reports success at 42. -/
theorem c10_final_probe_discarded_witness :
    stubFailFinal 0 100 = Except.ok false ∧
      (searchLoop stubFailFinal 1 10 100 100).err = none ∧
      (searchLoop stubFailFinal 1 10 100 100).ok_value ≠ 100 ∧
      stubFailFinal (1 + (searchLoop stubFailFinal 1 10 100 100).trace.length)
        (searchLoop stubFailFinal 1 10 100 100).ok_value = Except.ok false ∧
      ((export_spine stubFailFinal ["a.png"]).failed = false ∧
        (export_spine stubFailFinal ["a.png"]).printedFailLine = false ∧
        (export_spine stubFailFinal ["a.png"]).reportedScalePct =
          (if (pngFiles ["a.png"]).isEmpty then none
            else some (searchLoop stubFailFinal 1 10 100 100).ok_value) ∧
        (export_spine stubFailFinal ["a.png"]).uncaught =
          (if (pngFiles ["a.png"]).isEmpty then some SpineError.indexError else none) ∧
        (export_spine stubFailFinal ["a.png"]).printedSuccessLine =
          !(pngFiles ["a.png"]).isEmpty) :=
  ⟨rfl, rfl, by decide, rfl,
    c10_final_probe_discarded stubFailFinal ["a.png"] false rfl rfl (by decide) rfl⟩

end SpineExporter
